import Mathlib

/-!
Shallow embedding of the finsights-gemini ingestion pipeline and read cache.

Sources embedded:
- `src/app/services/cache.py` (class `CacheManager`)
- `src/app/services/async_processor.py` (class `AsyncRequestProcessor`)
- `src/app/services/gemini_async.py` (class `AsyncGeminiService`, at the level
  of its observable outcomes: the external network call and JSON extraction are
  modelled by a `ProviderOutcome` value carrying the already-extracted fields)
- `src/app/models/news.py` (`News.to_dict`, `Citation.to_dict`)

Python dictionaries become structures (fields are `Option` exactly where the
Python value can be `None`; a `.get(key, default)` whose key is always present
reads the field directly).  Python `datetime` values become an abstract integer
timestamp in minutes (`Time`) for ordering/TTL arithmetic, plus a calendar
`DateTime` structure for `strftime`-based title generation.  Python exceptions
(`AttributeError`/`TypeError`/`KeyError` raised by the dynamically-typed cache
code on type-confused values) become `Except String` results.
-/

namespace Finsights

deriving instance DecidableEq for Except

/-- Abstract timestamp, in minutes (the stock-cache TTL is 30 minutes). -/
abbrev Time := Int

/-- Calendar datetime, used where the source formats dates (`strftime`). -/
structure DateTime where
  year : Nat
  month : Nat
  day : Nat
  hour : Nat
  minute : Nat
deriving Repr, DecidableEq

/-- Abstract minute-granularity timestamp of a `DateTime` (monotone stand-in for
the wall clock; no claim depends on calendar arithmetic). -/
def DateTime.toTime (dt : DateTime) : Time :=
  ((((dt.year * 12 + dt.month) * 31 + dt.day) * 24 + dt.hour) * 60 + dt.minute : Int)

/-- Zero-padded two-digit number, as `strftime` `%d` renders the day. -/
def pad2 (n : Nat) : String :=
  if n < 10 then "0" ++ toString n else toString n

/-- Abbreviated month name, as `strftime` `%b` renders it (C locale). -/
def monthAbbrev : Nat → String
  | 1 => "Jan" | 2 => "Feb" | 3 => "Mar" | 4 => "Apr"
  | 5 => "May" | 6 => "Jun" | 7 => "Jul" | 8 => "Aug"
  | 9 => "Sep" | 10 => "Oct" | 11 => "Nov" | 12 => "Dec"
  | _ => "???"

/-- `dt.strftime("%d %b %Y")` from `_generate_title`. -/
def DateTime.dateStr (dt : DateTime) : String :=
  pad2 dt.day ++ " " ++ monthAbbrev dt.month ++ " " ++ toString dt.year

/-- Citation dictionary as produced by `_extract_citations` / `Citation.to_dict`. -/
structure CitationDict where
  index : Nat
  url : String
  title : Option String
deriving Repr, DecidableEq

/-- The dictionary produced by `News.to_dict` and stored in the cache.
Fields are `Option` exactly where the corresponding column is nullable. -/
structure NewsDict where
  id : Option Nat
  title : String
  summary : String
  content : Option String
  category : String
  subcategory : Option String
  news_type : String
  symbols : Option String
  sentiment_score : Int
  sentiment_explanation : String
  is_published : Bool
  is_manual : Bool
  is_featured : Bool
  /-- `fetched_at.isoformat()`; modelled as the timestamp (isoformat strings of
  a fixed timezone compare like the underlying datetimes). -/
  fetched_at : Option Time
  citations : List CitationDict
deriving Repr, DecidableEq

/-- A row of the `news` table (model fields the pipeline and cache read). -/
structure NewsRow where
  id : Nat
  title : String
  summary : String
  content : Option String
  category : String
  subcategory : Option String
  news_type : String
  symbols : Option String
  sentiment_score : Int
  sentiment_explanation : String
  is_published : Bool
  is_manual : Bool
  is_featured : Bool
  fetched_at : Time
deriving Repr, DecidableEq

/-- A row of the `citations` table. -/
structure CitationRow where
  news_id : Nat
  citation_index : Nat
  url : String
  title : Option String
deriving Repr, DecidableEq

/-- `News.to_dict` (`src/app/models/news.py`); `cits` is the content of the
`citations` relationship at conversion time. -/
def NewsRow.to_dict (r : NewsRow) (cits : List CitationDict) : NewsDict :=
  { id := some r.id, title := r.title, summary := r.summary, content := r.content,
    category := r.category, subcategory := r.subcategory, news_type := r.news_type,
    symbols := r.symbols, sentiment_score := r.sentiment_score,
    sentiment_explanation := r.sentiment_explanation, is_published := r.is_published,
    is_manual := r.is_manual, is_featured := r.is_featured,
    fetched_at := some r.fetched_at, citations := cits }

/-- `Citation.to_dict`. -/
def CitationRow.to_dict (ct : CitationRow) : CitationDict :=
  { index := ct.citation_index, url := ct.url, title := ct.title }

/-- The durable store plus the open SQLAlchemy session: `news`/`citations` are
the committed tables, `pendingNews`/`pendingCitations` are rows added and
flushed in the current transaction but not yet committed.  `nextId` is the
autoincrement counter (flush assigns ids). -/
structure Store where
  news : List NewsRow
  citations : List CitationRow
  pendingNews : List NewsRow
  pendingCitations : List CitationRow
  nextId : Nat
deriving Repr, DecidableEq

/-- `db.commit()`: pending rows become durable. -/
def Store.commit (st : Store) : Store :=
  { news := st.news ++ st.pendingNews, citations := st.citations ++ st.pendingCitations,
    pendingNews := [], pendingCitations := [], nextId := st.nextId }

/-- `db.add(news); db.flush()` — the caller builds `row` with `id = st.nextId`,
mirroring the autoincrement id that flush assigns. -/
def Store.add_flush (st : Store) (row : NewsRow) : Store :=
  { st with pendingNews := st.pendingNews ++ [row], nextId := st.nextId + 1 }

/-- `db.add(citation)` (flushed together with the surrounding statements). -/
def Store.addCitation (st : Store) (ct : CitationRow) : Store :=
  { st with pendingCitations := st.pendingCitations ++ [ct] }

/-- `db.query(News).filter(News.title == title).first()` — the open session sees
committed rows and rows flushed in the current transaction. -/
def Store.find_by_title (st : Store) (t : String) : Option NewsRow :=
  (st.news ++ st.pendingNews).find? (fun r => r.title == t)

/-! ### Association-list model of Python dicts (insertion-ordered) -/

/-- Python `d.get(k)` / `k in d`. -/
def alGet {α β : Type} [DecidableEq α] (k : α) : List (α × β) → Option β
  | [] => none
  | (k', v) :: rest => if k' = k then some v else alGet k rest

/-- Python `d[k] = v`: replace in place when the key exists (keeping its
position), otherwise append at the end — insertion-order semantics. -/
def alSet {α β : Type} [DecidableEq α] (k : α) (v : β) : List (α × β) → List (α × β)
  | [] => [(k, v)]
  | (k', v') :: rest => if k' = k then (k, v) :: rest else (k', v') :: alSet k v rest

/-! ### The read cache (`CacheManager`, src/app/services/cache.py)

The Python `_cache["news"]` maps a category name to an inner dict.  For the
ordinary categories the inner dict maps a subcategory (possibly `None`) to a
list of news dicts; `set_stock_news` additionally stores, under the `"stock"`
category, per-symbol dicts of the shape `{"news": [...], "expires_at": dt}`.
The inner-dict values are therefore a sum type `BucketVal`.  Cache methods that
crash in Python when they meet the unexpected variant (`AttributeError` /
`TypeError` on the duck-typed value) are modelled with `Except String`; an
`.error` result models the raised exception (Python may leave earlier in-place
mutations behind at the raise point; no claim depends on that partial state).
The symbol directory (`symbols`, `symbols_by_sector`) is not touched by any
claim and is omitted. -/

/-- A `set_stock_news` entry: `{"news": news_list, "expires_at": now + ttl}`. -/
structure StockEntry where
  news : List NewsDict
  expires_at : Time
deriving Repr, DecidableEq

/-- Value stored in a category's inner dict. -/
inductive BucketVal where
  | list (items : List NewsDict)
  | stock (entry : StockEntry)
deriving Repr, DecidableEq

/-- Does this inner-dict value hold a plain list (the variant every cache
method other than the stock-cache pair expects)? -/
def BucketVal.isList : BucketVal → Bool
  | .list _ => true
  | .stock _ => false

/-- Inner dict of one category: subcategory key (or symbol, or Python `None`)
to value. -/
abbrev CatBucket := List (Option String × BucketVal)

/-- The `CacheManager._cache` state. -/
structure Cache where
  newsCat : List (String × CatBucket)
  last_updated : List (String × Time)
  all_news : List NewsDict
  featured : List NewsDict
deriving Repr, DecidableEq

/-- The `__init__` state: the five fixed category keys, all indexes empty. -/
def initCache : Cache :=
  { newsCat := [("market", []), ("sector", []), ("macro", []), ("regulation", []), ("stock", [])],
    last_updated := [], all_news := [], featured := [] }

/-- Every inner-dict value of every category is a plain list (no per-symbol
TTL entry present).  Holds for `initCache` and after `load_from_db`/`add_news`;
broken by `set_stock_news`. -/
def Cache.listOnly (c : Cache) : Bool :=
  c.newsCat.all (fun p => p.2.all (fun q => q.2.isList))

/-- Python `x or default` for strings (`""` is falsy). -/
def pyOrS (s dflt : String) : String :=
  if s = "" then dflt else s

/-- Python `x or default` for optional strings (`None` and `""` are falsy). -/
def pyOrO (o : Option String) (dflt : String) : String :=
  match o with
  | some s => if s = "" then dflt else s
  | none => dflt

/-- Python `str.upper()` (ASCII model of the source's `.upper()`). -/
def upperStr (s : String) : String :=
  String.mk (s.data.map Char.toUpper)

/-- Python `str.lower()` (ASCII model of the source's `.lower()`). -/
def lowerStr (s : String) : String :=
  String.mk (s.data.map Char.toLower)

/-- Python `pat in s` substring test. -/
def strContains (hay pat : String) : Bool :=
  decide (List.IsInfix pat.data hay.data)

/-- The f-string `f"{category}_{subcategory}"` (Python renders `None` as the
text `None`). -/
def cacheKeyOf (category : String) (subcategory : Option String) : String :=
  category ++ "_" ++ (match subcategory with | some s => s | none => "None")

/-- Sort key used by the cache: `x.get("fetched_at", "")`, where the stored
value is an isoformat string or `None`.  `none ≤ some t` mirrors Python string
comparison against `""` for the default (a `None` value would actually make
Python's sort raise; no claim exercises that state, and the model totalizes
it with `none` as the least key). -/
def timeKeyLe (a b : Option Time) : Bool :=
  match a, b with
  | none, _ => true
  | some _, none => false
  | some x, some y => decide (x ≤ y)

/-- Stable insertion into a descending-sorted list: the new element goes after
every element whose key is ≥ its own key (matching Python stable
`sort(reverse=True)`). -/
def insDesc {α : Type} (le : α → α → Bool) (x : α) : List α → List α
  | [] => [x]
  | y :: ys => if le x y then y :: insDesc le x ys else x :: y :: ys

/-- Stable descending sort (insertion sort). -/
def sortDesc {α : Type} (le : α → α → Bool) (l : List α) : List α :=
  l.foldr (insDesc le) []

/-- Descending-by-`fetched_at` comparator for cached dicts. -/
def dictLe (a b : NewsDict) : Bool :=
  timeKeyLe a.fetched_at b.fetched_at

/-- Descending-by-`fetched_at` comparator for store rows
(`order_by(News.fetched_at.desc())`). -/
def rowLe (a b : NewsRow) : Bool :=
  decide (a.fetched_at ≤ b.fetched_at)

/-! ### Cache operations -/

/-- `add_news` (cache.py:172-194).  Inserts at the head of the category/
subcategory bucket (when the category key exists), at the head of the flat
list, stamps `last_updated`, and at the head of `featured` when applicable.
`news_dict.get("category", "market")` / `.get("subcategory", "general")` read
keys that `to_dict` always provides, so they reduce to the fields (a `None`
subcategory value is used as the bucket key as-is).  If the bucket value under
the key is a per-symbol TTL dict, Python raises `AttributeError` on
`dict.insert`; that raise happens before any other index is touched. -/
def add_news (d : NewsDict) (now : Time) (c : Cache) : Except String Cache :=
  let category := d.category
  let subKey := d.subcategory
  let finish : Cache → Cache := fun c0 =>
    { c0 with all_news := d :: c0.all_news,
              last_updated := alSet (cacheKeyOf category subKey) now c0.last_updated,
              featured := if d.is_featured then d :: c0.featured else c0.featured }
  match alGet category c.newsCat with
  | none => .ok (finish c)
  | some bucket =>
    match alGet subKey bucket with
    | some (.stock _) => .error "AttributeError: dict object has no attribute insert"
    | some (.list l) =>
        .ok (finish { c with newsCat := alSet category (alSet subKey (BucketVal.list (d :: l)) bucket) c.newsCat })
    | none =>
        .ok (finish { c with newsCat := alSet category (alSet subKey (BucketVal.list [d]) bucket) c.newsCat })

/-- `get_news_by_id` (cache.py:120-126): linear scan of the flat list. -/
def get_news_by_id (news_id : Nat) (c : Cache) : Option NewsDict :=
  c.all_news.find? (fun n => n.id == some news_id)

/-- `get_latest_news` (cache.py:162-165). -/
def get_latest_news (limit : Nat) (c : Cache) : List NewsDict :=
  c.all_news.take limit

/-- `search_news` (cache.py:145-155): case-insensitive substring match on
title and summary, in flat-list order. -/
def search_news (query : String) (limit : Nat) (c : Cache) : List NewsDict :=
  let ql := lowerStr query
  (c.all_news.filter (fun n =>
    strContains (lowerStr n.title) ql || strContains (lowerStr n.summary) ql)).take limit

/-- `get_featured_news` (cache.py:157-160). -/
def get_featured_news (limit : Nat) (c : Cache) : List NewsDict :=
  c.featured.take limit

/-- Concatenation of all subcategory lists of one category
(`for subcat_news in ...values(): news_list.extend(subcat_news)`).  Extending
with a per-symbol TTL dict makes the subsequent sort call `.get` on its string
keys, raising `AttributeError`; modelled as the error case. -/
def collectBucket : CatBucket → Except String (List NewsDict)
  | [] => .ok []
  | (_, .stock _) :: _ => .error "AttributeError: str object has no attribute get"
  | (_, .list l) :: rest => (collectBucket rest).map (fun acc => l ++ acc)

/-- `get_news_by_category` (cache.py:100-118).  A truthy subcategory argument
selects one bucket (slicing a TTL dict would raise `TypeError`); otherwise all
buckets of the category are merged and re-sorted by `fetched_at` descending. -/
def get_news_by_category (category : String) (subcategory : Option String)
    (limit : Nat) (c : Cache) : Except String (List NewsDict) :=
  match alGet category c.newsCat with
  | none => .ok []
  | some bucket =>
    let merged : Except String (List NewsDict) :=
      (collectBucket bucket).map (fun news => (sortDesc dictLe news).take limit)
    match subcategory with
    | some s =>
      if s = "" then merged
      else
        match alGet (some s) bucket with
        | none => .ok []
        | some (.list l) => .ok (l.take limit)
        | some (.stock _) => .error "TypeError: unhashable type slice"
    | none => merged

/-- Python `str.split(",")` on the underlying characters (structural model of
`String.splitOn ","`, which the kernel cannot evaluate): `""` splits to
`[""]`, separators at the ends produce empty tokens. -/
def splitComma : List Char → List (List Char)
  | [] => [[]]
  | ch :: rest =>
    if ch = ',' then [] :: splitComma rest
    else
      match splitComma rest with
      | [] => [[ch]]
      | tok :: toks => (ch :: tok) :: toks

/-- Python `s.split(",")`. -/
def pySplitComma (s : String) : List String :=
  (splitComma s.data).map String.mk

/-- The symbol filter of `get_stock_news`:
`symbol.upper() in symbols.upper().split(",")` with
`symbols = news.get("symbols", "") or ""`. -/
def sym_match (symbol : String) (n : NewsDict) : Bool :=
  decide (upperStr symbol ∈ pySplitComma (upperStr (n.symbols.getD "")))

/-- `get_stock_news` (cache.py:128-143): serve the per-symbol TTL entry when
present and unexpired, otherwise scan the flat list with `sym_match`.  The
Python guard first checks `cached.get("expires_at")` for truthiness; the only
writer `set_stock_news` always stores a datetime there, which is always
truthy, so the guard reduces to the comparison `expires_at > now`.  If the
value stored under the symbol is a plain list (possible when `add_news` filed a
record under category `"stock"`), Python raises `AttributeError` on
`list.get`. -/
def get_stock_news (symbol : String) (limit : Nat) (now : Time) (c : Cache) :
    Except String (List NewsDict) :=
  match alGet "stock" c.newsCat with
  | none => .error "KeyError: stock"
  | some bucket =>
    let scan : List NewsDict := (c.all_news.filter (sym_match symbol)).take limit
    match alGet (some symbol) bucket with
    | some (.stock e) =>
        if e.expires_at > now then .ok (e.news.take limit) else .ok scan
    | some (.list _) => .error "AttributeError: list object has no attribute get"
    | none => .ok scan

/-- `set_stock_news` (cache.py:235-241): store the list with
`expires_at = now + 30 minutes` under the symbol in the `"stock"` category. -/
def set_stock_news (symbol : String) (news_list : List NewsDict) (now : Time)
    (c : Cache) : Except String Cache :=
  match alGet "stock" c.newsCat with
  | none => .error "KeyError: stock"
  | some bucket =>
      let entry := BucketVal.stock { news := news_list, expires_at := now + 30 }
      .ok { c with newsCat := alSet "stock" (alSet (some symbol) entry bucket) c.newsCat }

/-- One inner dict of `remove_news`'s category loop: rebuild each subcategory
list without the id.  Iterating a per-symbol TTL dict yields its string keys,
and `"news".get("id")` raises `AttributeError`. -/
def removeFromBucket (news_id : Nat) : CatBucket → Except String CatBucket
  | [] => .ok []
  | (_, .stock _) :: _ => .error "AttributeError: str object has no attribute get"
  | (k, .list l) :: rest =>
      (removeFromBucket news_id rest).map
        (fun r => (k, BucketVal.list (l.filter (fun n => n.id != some news_id))) :: r)

/-- The category loop of `remove_news`. -/
def removeCats (news_id : Nat) : List (String × CatBucket) → Except String (List (String × CatBucket))
  | [] => .ok []
  | (cat, b) :: rest =>
    match removeFromBucket news_id b with
    | .error e => .error e
    | .ok b' => (removeCats news_id rest).map (fun r => (cat, b') :: r)

/-- `remove_news` (cache.py:213-233): filter the id out of the flat list, the
featured list and every category bucket.  The Python method mutates the flat
and featured lists first and only then hits the category loop, so an `.error`
result corresponds to an `AttributeError` raised mid-removal. -/
def remove_news (news_id : Nat) (c : Cache) : Except String Cache :=
  let all1 := c.all_news.filter (fun n => n.id != some news_id)
  let feat1 := c.featured.filter (fun n => n.id != some news_id)
  match removeCats news_id c.newsCat with
  | .error e => .error e
  | .ok nc => .ok { c with all_news := all1, featured := feat1, newsCat := nc }

/-- One iteration of the `load_from_db` rebuild loop (cache.py:77-98): append
the dict to its category/subcategory bucket (created on demand), to the flat
list, to `featured` when flagged, and record the first-seen `last_updated`
stamp per cache key.  After the initial clearing every bucket value is a plain
list, so the `.stock` branch is unreachable (Python would raise there). -/
def load_step (citTable : List CitationRow) (c : Cache) (r : NewsRow) : Cache :=
  let d := r.to_dict ((citTable.filter (fun ct => ct.news_id == r.id)).map CitationRow.to_dict)
  let category := r.category
  let subcategory := pyOrO r.subcategory "general"
  let c1 :=
    match alGet category c.newsCat with
    | none => c
    | some bucket =>
      match alGet (some subcategory) bucket with
      | none =>
          { c with newsCat := alSet category (alSet (some subcategory) (BucketVal.list [d]) bucket) c.newsCat }
      | some (.list l) =>
          { c with newsCat := alSet category (alSet (some subcategory) (BucketVal.list (l ++ [d])) bucket) c.newsCat }
      | some (.stock _) => c
  { c1 with
    all_news := c1.all_news ++ [d],
    featured := if r.is_featured then c1.featured ++ [d] else c1.featured,
    last_updated :=
      match alGet (cacheKeyOf category (some subcategory)) c1.last_updated with
      | some _ => c1.last_updated
      | none => alSet (cacheKeyOf category (some subcategory)) r.fetched_at c1.last_updated }

/-- `load_from_db` (cache.py:60-98): reset every category bucket and the flat/
featured lists (`last_updated` is only ever extended), query the published
rows ordered by `fetched_at` descending, and replay them through the rebuild
loop. -/
def load_from_db (st : Store) (c : Cache) : Cache :=
  let cleared : Cache :=
    { c with newsCat := c.newsCat.map (fun p => (p.1, ([] : CatBucket))),
             all_news := [], featured := [] }
  let items := sortDesc rowLe (st.news.filter (fun r => r.is_published))
  items.foldl (load_step st.citations) cleared

/-! ### Content provider client (`AsyncGeminiService`, src/app/services/gemini_async.py)

The external network call and the JSON extraction are modelled by their
observable outcome: no credential (`client is None`), an exception with a
message (`str(e)`), or a successful return carrying the already-extracted
fields (a parse fallback is the `succeeds` case with empty title and zero
sentiment).  `_log_api_call` appends an `ApiLog` row and commits the session;
the log itself is modelled as a trace event, the commit as `Store.commit`. -/

/-- Observable pipeline events, in program order. -/
inductive Event where
  /-- `_log_api_call(..., "success" | "failed", ...)` writing a CallAttempt. -/
  | log (ok : Bool)
  /-- The `db.commit()` ending the job execution's record transaction. -/
  | commitTx
  /-- `cache_manager.add_news` for the record with this id. -/
  | cacheAdd (id : Nat)
deriving Repr, DecidableEq, BEq

/-- Outcome of the external call made by `fetch_summary`. -/
inductive ProviderOutcome where
  | notConfigured
  | raises (msg : String)
  | succeeds (title : String) (content : String) (sentiment_score : Int)
      (sentiment_explanation : String) (citations : List CitationDict)
deriving Repr, DecidableEq

/-- The dict returned by `fetch_summary`, with the `.get` defaults the
processor applies already folded in (missing `title` reads as `""`, missing
`sentiment_score` as `0`; the error dicts carry `content = None`). -/
structure SummaryRes where
  error : Option String
  title : String
  content : Option String
  citations : List CitationDict
  sentiment_score : Int
  sentiment_explanation : String
deriving Repr, DecidableEq

/-- `fetch_summary` (gemini_async.py:80-125).  With no client it returns the
error dict without logging anything; an exception logs a failed CallAttempt;
success logs a success CallAttempt.  Both logging paths commit the session. -/
def fetch_summary : ProviderOutcome → Store → SummaryRes × Store × List Event
  | .notConfigured, st =>
      ({ error := some "API key not configured", title := "", content := none,
         citations := [], sentiment_score := 0, sentiment_explanation := "" }, st, [])
  | .raises m, st =>
      ({ error := some m, title := "", content := none,
         citations := [], sentiment_score := 0, sentiment_explanation := "" },
       st.commit, [.log false])
  | .succeeds t cont ss se cits, st =>
      ({ error := none, title := t, content := some cont,
         citations := cits, sentiment_score := ss, sentiment_explanation := se },
       st.commit, [.log true])

/-- One article dict of a `fetch_news` result, with the loop's `.get` defaults
folded in. -/
structure ArticleDict where
  title : String
  summary : String
  content : String
  stocks_mentioned : List String
  sentiment_score : Int
  sentiment_explanation : String
deriving Repr, DecidableEq

/-- Outcome of the external call made by `fetch_news` (a parse fallback is
`succeeds` with an empty article list). -/
inductive ProviderNewsOutcome where
  | notConfigured
  | raises (msg : String)
  | succeeds (articles : List ArticleDict) (citations : List CitationDict)
deriving Repr, DecidableEq

/-- The dict returned by `fetch_news`. -/
structure NewsRes where
  error : Option String
  articles : List ArticleDict
  citations : List CitationDict
deriving Repr, DecidableEq

/-- `fetch_news` (gemini_async.py:127-165); same logging discipline as
`fetch_summary`. -/
def fetch_news : ProviderNewsOutcome → Store → NewsRes × Store × List Event
  | .notConfigured, st =>
      ({ error := some "API key not configured", articles := [], citations := [] }, st, [])
  | .raises m, st =>
      ({ error := some m, articles := [], citations := [] }, st.commit, [.log false])
  | .succeeds arts cits, st =>
      ({ error := none, articles := arts, citations := cits }, st.commit, [.log true])

/-- Python truthiness of `result.get("error")`: an empty error string is falsy
and does not take the early-return branch. -/
def errTruthy : Option String → Bool
  | some s => s != ""
  | none => false

/-! ### Ingestion pipeline (`AsyncRequestProcessor`, src/app/services/async_processor.py) -/

/-- The `ScheduleJob` row fields the processor reads. -/
structure ScheduleJob where
  job_name : String
  category : String
  subcategory : Option String
  query_template : String
  last_run : Option Time
deriving Repr, DecidableEq

/-- The dict returned by `process_job`. -/
structure JobResult where
  success : Bool
  error : Option String
  news_count : Nat
deriving Repr, DecidableEq

/-- Full observable outcome of one job execution: the returned dict, the job
row (its `last_run` may have been advanced), the store, the cache, and the
ordered event trace. -/
structure ProcOut where
  result : JobResult
  job : ScheduleJob
  store : Store
  cache : Cache
  trace : List Event
deriving Repr, DecidableEq

/-- `_generate_title` (async_processor.py:177-187). -/
def generate_title (subcategory : Option String) (dt : DateTime) : String :=
  let ds := dt.dateStr
  match subcategory with
  | some "pre_market" => "Pre-Market Analysis - " ++ ds
  | some "morning" => "Morning Market Update - " ++ ds
  | some "midday" => "Mid-Day Market Summary - " ++ ds
  | some "post_market" => "Post-Market Summary - " ++ ds
  | some "evening" => "Evening Market Wrap - " ++ ds
  | _ => "Market Update - " ++ ds

/-- Python `" ".join(text.split())`: collapse whitespace runs. -/
def collapseWs (s : String) : String :=
  String.intercalate " " ((s.split Char.isWhitespace).filter (fun t => t != ""))

/-- `_clean_summary_text` (gemini_async.py:181-187) on the possibly-`None`
content value.  The two markdown-stripping regex substitutions are not
modelled (no claim reads the summary text); the falsy check, the whitespace
collapsing and the 500-char truncation are. -/
def clean_summary_text : Option String → String
  | none => ""
  | some text =>
      if text = "" then ""
      else
        let t := collapseWs text
        if t.length > 500 then t.take 500 ++ "..." else t

/-- Fold adding the extracted citations for record `nid`
(async_processor.py:85-92 and 159-166). -/
def addCitations (nid : Nat) (cits : List CitationDict) (st : Store) : Store :=
  cits.foldl (fun s cd =>
    s.addCitation { news_id := nid, citation_index := cd.index, url := cd.url, title := cd.title }) st

/-- `_process_market_job` (async_processor.py:44-100).  An `.error` result
models an uncaught exception escaping the method (only `add_news` can raise
here). -/
def process_market_job (po : ProviderOutcome) (job : ScheduleJob) (now : DateTime)
    (st : Store) (c : Cache) : Except String ProcOut :=
  let fr := fetch_summary po st
  let res := fr.1
  let st0 := fr.2.1
  let ev := fr.2.2
  if errTruthy res.error then
    .ok { result := { success := false, error := res.error, news_count := 0 },
          job := job, store := st0, cache := c, trace := ev }
  else
    let title := if res.title = "" then generate_title job.subcategory now else res.title
    let summary0 := clean_summary_text res.content
    let summary := if summary0.length > 500 then summary0.take 497 ++ "..." else summary0
    let nid := st0.nextId
    let row : NewsRow :=
      { id := nid, title := title, summary := summary, content := res.content,
        category := pyOrS job.category "market",
        subcategory := some (pyOrO job.subcategory "general"),
        news_type := "summary", symbols := none,
        sentiment_score := res.sentiment_score,
        sentiment_explanation := res.sentiment_explanation,
        is_published := true, is_manual := false, is_featured := false,
        fetched_at := now.toTime }
    let st1 := st0.add_flush row
    let st2 := addCitations nid res.citations st1
    let job1 := { job with last_run := some now.toTime }
    let st3 := st2.commit
    (add_news (row.to_dict res.citations) now.toTime c).map (fun c1 =>
      { result := { success := true, error := none, news_count := 1 },
        job := job1, store := st3, cache := c1,
        trace := ev ++ [.commitTx, .cacheAdd nid] })

/-- The article loop of `_process_news_job` (async_processor.py:124-169):
skip articles with short titles or a title already present among committed or
flushed rows; otherwise build the row, flush it, add the call-level citations,
and push the record into the cache. -/
def news_loop (cits : List CitationDict) (jobCat : String) (jobSub : Option String)
    (now : DateTime) :
    List ArticleDict → Store → Cache → Nat → List Event →
    Except String (Store × Cache × Nat × List Event)
  | [], st, c, k, tr => .ok (st, c, k, tr)
  | a :: rest, st, c, k, tr =>
    if a.title = "" ∨ a.title.length < 10 then
      news_loop cits jobCat jobSub now rest st c k tr
    else if (st.find_by_title a.title).isSome then
      news_loop cits jobCat jobSub now rest st c k tr
    else
      let symbols := if a.stocks_mentioned.isEmpty then none
                     else some (String.intercalate "," a.stocks_mentioned)
      let nid := st.nextId
      let row : NewsRow :=
        { id := nid, title := a.title.take 500,
          summary := if a.summary = "" then a.content.take 500 else a.summary,
          content := some a.content,
          category := pyOrS jobCat "sector",
          subcategory := some (pyOrO jobSub "general"),
          news_type := "article", symbols := symbols,
          sentiment_score := a.sentiment_score,
          sentiment_explanation := a.sentiment_explanation,
          is_published := true, is_manual := false, is_featured := false,
          fetched_at := now.toTime }
      let st1 := st.add_flush row
      let st2 := addCitations nid cits st1
      (add_news (row.to_dict cits) now.toTime c).bind (fun c1 =>
        news_loop cits jobCat jobSub now rest st2 c1 (k + 1) (tr ++ [.cacheAdd nid]))

/-- `_process_news_job` (async_processor.py:102-175). -/
def process_news_job (po : ProviderNewsOutcome) (job : ScheduleJob) (now : DateTime)
    (st : Store) (c : Cache) : Except String ProcOut :=
  let fr := fetch_news po st
  let res := fr.1
  let st0 := fr.2.1
  let ev := fr.2.2
  if errTruthy res.error then
    .ok { result := { success := false, error := res.error, news_count := 0 },
          job := job, store := st0, cache := c, trace := ev }
  else
    (news_loop res.citations job.category job.subcategory now res.articles st0 c 0 []).map
      (fun r =>
        { result := { success := true, error := none, news_count := r.2.2.1 },
          job := { job with last_run := some now.toTime },
          store := r.1.commit, cache := r.2.1,
          trace := ev ++ r.2.2.2 ++ [.commitTx] })

/-- The record row a successful market job builds (characterization of the
`News(...)` constructor call in `_process_market_job`, with `nid` the id flush
assigns). -/
def market_row (t cont : String) (ss : Int) (se : String) (job : ScheduleJob)
    (now : DateTime) (nid : Nat) : NewsRow :=
  { id := nid,
    title := if t = "" then generate_title job.subcategory now else t,
    summary :=
      (fun s0 => if s0.length > 500 then s0.take 497 ++ "..." else s0)
        (clean_summary_text (some cont)),
    content := some cont,
    category := pyOrS job.category "market",
    subcategory := some (pyOrO job.subcategory "general"),
    news_type := "summary", symbols := none,
    sentiment_score := ss, sentiment_explanation := se,
    is_published := true, is_manual := false, is_featured := false,
    fetched_at := now.toTime }

/-- The record row a kept news article builds (characterization of the
`News(...)` constructor call in `_process_news_job`). -/
def news_row (a : ArticleDict) (jobCat : String) (jobSub : Option String)
    (now : DateTime) (nid : Nat) : NewsRow :=
  { id := nid, title := a.title.take 500,
    summary := if a.summary = "" then a.content.take 500 else a.summary,
    content := some a.content,
    category := pyOrS jobCat "sector",
    subcategory := some (pyOrO jobSub "general"),
    news_type := "article",
    symbols := if a.stocks_mentioned.isEmpty then none
               else some (String.intercalate "," a.stocks_mentioned),
    sentiment_score := a.sentiment_score,
    sentiment_explanation := a.sentiment_explanation,
    is_published := true, is_manual := false, is_featured := false,
    fetched_at := now.toTime }

/-- The dict `load_from_db` builds for a row: `to_dict` with the row's
citations looked up in the citations table. -/
def load_dict (citTable : List CitationRow) (r : NewsRow) : NewsDict :=
  r.to_dict ((citTable.filter (fun ct => ct.news_id == r.id)).map CitationRow.to_dict)

/-- Every record reachable from the featured list or any category bucket is
present in the flat list. -/
def cacheClosed (c : Cache) : Prop :=
  (∀ d ∈ c.featured, d ∈ c.all_news) ∧
  (∀ p ∈ c.newsCat, ∀ q ∈ p.2, ∀ l, q.2 = BucketVal.list l → ∀ x ∈ l, x ∈ c.all_news)

/-- Event trace of a job execution (empty for an uncaught exception). -/
def run_trace : Except String ProcOut → List Event
  | .ok o => o.trace
  | .error _ => []

/-- Returned result dict of a job execution. -/
def run_result : Except String ProcOut → Option JobResult
  | .ok o => some o.result
  | .error _ => none

/-- Titles of the committed store rows after a job execution. -/
def run_news_titles : Except String ProcOut → List String
  | .ok o => o.store.news.map (fun r => r.title)
  | .error _ => []

/-- Title lengths of the committed store rows after a job execution. -/
def run_title_lengths : Except String ProcOut → List Nat
  | .ok o => o.store.news.map (fun r => r.title.length)
  | .error _ => []

/-- Number of flat-list cache entries after a job execution. -/
def run_cache_size : Except String ProcOut → Nat
  | .ok o => o.cache.all_news.length
  | .error _ => 0

/-- The ordering asserted by the specification for one job execution's trace:
every cache insertion is preceded by the covering transaction commit and
followed by the success CallAttempt log. -/
def spec_order_holds (tr : List Event) : Bool :=
  tr.all (fun e =>
    match e with
    | .cacheAdd _ =>
        decide (tr.indexOf Event.commitTx < tr.indexOf e) &&
        decide (tr.indexOf e < tr.indexOf (Event.log true))
    | _ => true)

/-! ### Concrete inputs used by counterexamples and witnesses -/

/-- An empty store whose autoincrement counter starts at 1. -/
def stEmpty : Store :=
  { news := [], citations := [], pendingNews := [], pendingCitations := [], nextId := 1 }

def nowX : DateTime := { year := 2025, month := 3, day := 7, hour := 9, minute := 30 }

def jobMarket : ScheduleJob :=
  { job_name := "market_pre", category := "market", subcategory := some "pre_market",
    query_template := "pre-market update", last_run := none }

def jobSector : ScheduleJob :=
  { job_name := "sector_auto", category := "sector", subcategory := some "auto",
    query_template := "auto sector news", last_run := none }

def artOne : ArticleDict :=
  { title := "Auto sector rallies today", summary := "Gains across carmakers",
    content := "Body text", stocks_mentioned := ["TATAMOTORS"],
    sentiment_score := 3, sentiment_explanation := "strong demand" }

/-- A stored row whose title equals `artOne`'s title. -/
def rowDup : NewsRow :=
  { id := 7, title := "Auto sector rallies today", summary := "old", content := none,
    category := "sector", subcategory := some "auto", news_type := "article",
    symbols := none, sentiment_score := 0, sentiment_explanation := "",
    is_published := true, is_manual := false, is_featured := false, fetched_at := 10 }

/-- A store already holding a record titled `"Auto sector rallies today"`. -/
def stDup : Store := { stEmpty with news := [rowDup], nextId := 8 }

/-- A cached record associated with symbol TCS. -/
def dictTcs : NewsDict :=
  { id := some 1, title := "TCS wins deal", summary := "s", content := none,
    category := "stock", subcategory := none, news_type := "article",
    symbols := some "TCS", sentiment_score := 1, sentiment_explanation := "",
    is_published := true, is_manual := false, is_featured := false,
    fetched_at := some 50, citations := [] }

/-- A cached record whose symbols string is empty. -/
def dictNoSyms : NewsDict :=
  { id := some 2, title := "No symbols here", summary := "s", content := none,
    category := "market", subcategory := some "general", news_type := "article",
    symbols := some "", sentiment_score := 0, sentiment_explanation := "",
    is_published := true, is_manual := false, is_featured := false,
    fetched_at := some 60, citations := [] }

/-- A 501-character provider title. -/
def title501 : String := String.mk (List.replicate 501 'A')

/-- The cache state produced by a successful `set_stock_news` when the
`"stock"` category held bucket `b`. -/
def stock_set (sym : String) (L : List NewsDict) (t0 : Time) (b : CatBucket)
    (c : Cache) : Cache :=
  { c with newsCat :=
      alSet "stock" (alSet (some sym) (BucketVal.stock { news := L, expires_at := t0 + 30 }) b) c.newsCat }

/-- A record whose category is none of the five known categories. -/
def dictOdd : NewsDict :=
  { id := some 9, title := "Crypto update", summary := "s", content := none,
    category := "crypto", subcategory := some "btc", news_type := "article",
    symbols := none, sentiment_score := 0, sentiment_explanation := "",
    is_published := true, is_manual := false, is_featured := false,
    fetched_at := some 70, citations := [] }

/-! ### Basic lemmas about the dict and sorting helpers -/

theorem alGet_mem {α β : Type} [DecidableEq α] {k : α} {v : β} :
    ∀ {l : List (α × β)}, alGet k l = some v → (k, v) ∈ l := by
  intro l
  induction l with
  | nil => intro h; simp [alGet] at h
  | cons p rest ih =>
    intro h
    rcases p with ⟨k', v'⟩
    simp only [alGet] at h
    by_cases hk : k' = k
    · rw [if_pos hk] at h
      injection h with h2
      subst h2
      subst hk
      exact List.mem_cons_self _ _
    · rw [if_neg hk] at h
      exact List.mem_cons_of_mem _ (ih h)

theorem mem_alSet {α β : Type} [DecidableEq α] {k : α} {v : β} {x : α × β} :
    ∀ {l : List (α × β)}, x ∈ alSet k v l → x = (k, v) ∨ x ∈ l := by
  intro l
  induction l with
  | nil =>
    intro h
    simp only [alSet, List.mem_singleton] at h
    exact Or.inl h
  | cons p rest ih =>
    intro h
    rcases p with ⟨k', v'⟩
    simp only [alSet] at h
    by_cases hk : k' = k
    · rw [if_pos hk] at h
      rcases List.mem_cons.mp h with h1 | h1
      · exact Or.inl h1
      · exact Or.inr (List.mem_cons_of_mem _ h1)
    · rw [if_neg hk] at h
      rcases List.mem_cons.mp h with h1 | h1
      · exact Or.inr (h1 ▸ List.mem_cons_self _ _)
      · rcases ih h1 with h2 | h2
        · exact Or.inl h2
        · exact Or.inr (List.mem_cons_of_mem _ h2)

theorem alGet_alSet_self {α β : Type} [DecidableEq α] (k : α) (v : β) :
    ∀ (l : List (α × β)), alGet k (alSet k v l) = some v := by
  intro l
  induction l with
  | nil => simp [alSet, alGet]
  | cons p rest ih =>
    rcases p with ⟨k', v'⟩
    simp only [alSet]
    by_cases hk : k' = k
    · rw [if_pos hk]
      simp [alGet]
    · rw [if_neg hk]
      simp only [alGet]
      rw [if_neg hk]
      exact ih

theorem mem_insDesc {α : Type} (le : α → α → Bool) (x y : α) :
    ∀ (l : List α), y ∈ insDesc le x l ↔ y = x ∨ y ∈ l := by
  intro l
  induction l with
  | nil => simp [insDesc]
  | cons z rest ih =>
    simp only [insDesc]
    by_cases hle : le x z = true
    · rw [if_pos hle]
      simp only [List.mem_cons, ih]
      tauto
    · rw [if_neg hle]
      simp [List.mem_cons]

theorem length_insDesc {α : Type} (le : α → α → Bool) (x : α) :
    ∀ (l : List α), (insDesc le x l).length = l.length + 1 := by
  intro l
  induction l with
  | nil => simp [insDesc]
  | cons z rest ih =>
    simp only [insDesc]
    by_cases hle : le x z = true
    · rw [if_pos hle]
      simp [ih]
    · rw [if_neg hle]
      simp

theorem mem_sortDesc {α : Type} (le : α → α → Bool) (y : α) :
    ∀ (l : List α), y ∈ sortDesc le l ↔ y ∈ l := by
  intro l
  induction l with
  | nil => simp [sortDesc]
  | cons z rest ih =>
    simp only [sortDesc, List.foldr] at *
    rw [mem_insDesc]
    simp [ih]

theorem length_sortDesc {α : Type} (le : α → α → Bool) :
    ∀ (l : List α), (sortDesc le l).length = l.length := by
  intro l
  induction l with
  | nil => rfl
  | cons z rest ih =>
    simp only [sortDesc, List.foldr] at *
    rw [length_insDesc]
    simp [ih]

/-! ### Structural lemmas about the store and cache operations -/

theorem addCitations_news (nid : Nat) (cits : List CitationDict) :
    ∀ (st : Store), (addCitations nid cits st).news = st.news := by
  induction cits with
  | nil => intro st; rfl
  | cons cd rest ih => intro st; simpa [addCitations, Store.addCitation] using ih _

theorem addCitations_pendingNews (nid : Nat) (cits : List CitationDict) :
    ∀ (st : Store), (addCitations nid cits st).pendingNews = st.pendingNews := by
  induction cits with
  | nil => intro st; rfl
  | cons cd rest ih => intro st; simpa [addCitations, Store.addCitation] using ih _

theorem addCitations_nextId (nid : Nat) (cits : List CitationDict) :
    ∀ (st : Store), (addCitations nid cits st).nextId = st.nextId := by
  induction cits with
  | nil => intro st; rfl
  | cons cd rest ih => intro st; simpa [addCitations, Store.addCitation] using ih _

/-- In a `listOnly` cache no bucket holds a per-symbol TTL entry. -/
theorem listOnly_no_stock {c : Cache} {cat : String} {bucket : CatBucket}
    {k : Option String} {e : StockEntry}
    (hc : c.listOnly = true) (hb : alGet cat c.newsCat = some bucket)
    (hk : alGet k bucket = some (BucketVal.stock e)) : False := by
  have h1 := List.all_eq_true.mp hc _ (alGet_mem hb)
  have h2 := List.all_eq_true.mp h1 _ (alGet_mem hk)
  simp [BucketVal.isList] at h2

/-- Updating a bucket entry to a plain list preserves `listOnly`. -/
theorem listOnly_update {c : Cache} {cat : String} {bucket : CatBucket}
    {k : Option String} {l : List NewsDict}
    (hc : c.listOnly = true) (hb : alGet cat c.newsCat = some bucket) :
    Cache.listOnly { c with newsCat := alSet cat (alSet k (BucketVal.list l) bucket) c.newsCat } = true := by
  apply List.all_eq_true.mpr
  intro p hp
  rcases mem_alSet hp with h1 | h1
  · subst h1
    apply List.all_eq_true.mpr
    intro q hq
    rcases mem_alSet hq with h2 | h2
    · subst h2; rfl
    · exact List.all_eq_true.mp (List.all_eq_true.mp hc _ (alGet_mem hb)) _ h2
  · exact List.all_eq_true.mp hc _ h1

/-- On a `listOnly` cache `add_news` never raises, prepends the dict to the
flat list, keeps `listOnly`, prepends to `featured` exactly when the record is
featured, and leaves the category map unchanged when the category key is
absent. -/
theorem add_news_ok {c : Cache} (d : NewsDict) (now : Time) (hc : c.listOnly = true) :
    ∃ c', add_news d now c = .ok c' ∧
      c'.all_news = d :: c.all_news ∧
      c'.listOnly = true ∧
      c'.featured = (if d.is_featured then d :: c.featured else c.featured) ∧
      (alGet d.category c.newsCat = none → c'.newsCat = c.newsCat) := by
  cases hcat : alGet d.category c.newsCat with
  | none =>
    have heq : add_news d now c = .ok
        { c with all_news := d :: c.all_news,
                 last_updated := alSet (cacheKeyOf d.category d.subcategory) now c.last_updated,
                 featured := if d.is_featured then d :: c.featured else c.featured } := by
      simp only [add_news, hcat]
    exact ⟨_, heq, rfl, hc, rfl, fun _ => rfl⟩
  | some bucket =>
    cases hsub : alGet d.subcategory bucket with
    | none =>
      have heq : add_news d now c = .ok
          { newsCat := alSet d.category (alSet d.subcategory (BucketVal.list [d]) bucket) c.newsCat,
            last_updated := alSet (cacheKeyOf d.category d.subcategory) now c.last_updated,
            all_news := d :: c.all_news,
            featured := if d.is_featured then d :: c.featured else c.featured } := by
        simp only [add_news, hcat, hsub]
      refine ⟨_, heq, rfl, ?_, rfl, fun h => absurd h (by simp)⟩
      exact listOnly_update (l := [d]) hc hcat
    | some bv =>
      cases bv with
      | list l =>
        have heq : add_news d now c = .ok
            { newsCat := alSet d.category (alSet d.subcategory (BucketVal.list (d :: l)) bucket) c.newsCat,
              last_updated := alSet (cacheKeyOf d.category d.subcategory) now c.last_updated,
              all_news := d :: c.all_news,
              featured := if d.is_featured then d :: c.featured else c.featured } := by
          simp only [add_news, hcat, hsub]
        refine ⟨_, heq, rfl, ?_, rfl, fun h => absurd h (by simp)⟩
        exact listOnly_update (l := d :: l) hc hcat
      | stock e => exact absurd hsub (fun h => listOnly_no_stock hc hcat h)

/-! ### Unfolding equations for the pipeline -/

theorem process_market_job_succeeds_eq (t cont : String) (ss : Int) (se : String)
    (cits : List CitationDict) (job : ScheduleJob) (now : DateTime) (st : Store) (c : Cache) :
    process_market_job (.succeeds t cont ss se cits) job now st c =
      (add_news ((market_row t cont ss se job now st.nextId).to_dict cits) now.toTime c).map
        (fun c1 =>
          { result := { success := true, error := none, news_count := 1 },
            job := { job with last_run := some now.toTime },
            store := (addCitations st.nextId cits
              (Store.add_flush (st.commit) (market_row t cont ss se job now st.nextId))).commit,
            cache := c1,
            trace := [Event.log true, Event.commitTx, Event.cacheAdd st.nextId] }) := rfl

theorem process_market_job_notConfigured_eq (job : ScheduleJob) (now : DateTime)
    (st : Store) (c : Cache) :
    process_market_job .notConfigured job now st c =
      .ok { result := { success := false, error := some "API key not configured", news_count := 0 },
            job := job, store := st, cache := c, trace := [] } := rfl

theorem process_market_job_raises_eq (m : String) (hm : m ≠ "") (job : ScheduleJob)
    (now : DateTime) (st : Store) (c : Cache) :
    process_market_job (.raises m) job now st c =
      .ok { result := { success := false, error := some m, news_count := 0 },
            job := job, store := st.commit, cache := c, trace := [Event.log false] } := by
  have hb : errTruthy (some m) = true := by
    simp [errTruthy, bne_iff_ne, hm]
  simp [process_market_job, fetch_summary, hb]

theorem process_news_job_succeeds_eq (arts : List ArticleDict) (cits : List CitationDict)
    (job : ScheduleJob) (now : DateTime) (st : Store) (c : Cache) :
    process_news_job (.succeeds arts cits) job now st c =
      (news_loop cits job.category job.subcategory now arts (st.commit) c 0 []).map
        (fun r =>
          { result := { success := true, error := none, news_count := r.2.2.1 },
            job := { job with last_run := some now.toTime },
            store := r.1.commit, cache := r.2.1,
            trace := [Event.log true] ++ r.2.2.2 ++ [Event.commitTx] }) := rfl

theorem process_news_job_notConfigured_eq (job : ScheduleJob) (now : DateTime)
    (st : Store) (c : Cache) :
    process_news_job .notConfigured job now st c =
      .ok { result := { success := false, error := some "API key not configured", news_count := 0 },
            job := job, store := st, cache := c, trace := [] } := rfl

theorem process_news_job_raises_eq (m : String) (hm : m ≠ "") (job : ScheduleJob)
    (now : DateTime) (st : Store) (c : Cache) :
    process_news_job (.raises m) job now st c =
      .ok { result := { success := false, error := some m, news_count := 0 },
            job := job, store := st.commit, cache := c, trace := [Event.log false] } := by
  have hb : errTruthy (some m) = true := by
    simp [errTruthy, bne_iff_ne, hm]
  simp [process_news_job, fetch_news, hb]

theorem news_loop_nil_eq (cits : List CitationDict) (jobCat : String)
    (jobSub : Option String) (now : DateTime) (st : Store) (c : Cache) (k : Nat)
    (tr : List Event) :
    news_loop cits jobCat jobSub now [] st c k tr = .ok (st, c, k, tr) := rfl

theorem news_loop_skip_eq (cits : List CitationDict) (jobCat : String)
    (jobSub : Option String) (now : DateTime) (a : ArticleDict) (rest : List ArticleDict)
    (st : Store) (c : Cache) (k : Nat) (tr : List Event)
    (h : (a.title = "" ∨ a.title.length < 10) ∨ (st.find_by_title a.title).isSome = true) :
    news_loop cits jobCat jobSub now (a :: rest) st c k tr =
      news_loop cits jobCat jobSub now rest st c k tr := by
  by_cases h1 : a.title = "" ∨ a.title.length < 10
  · simp only [news_loop]
    rw [if_pos h1]
  · have h2 : (st.find_by_title a.title).isSome = true := by tauto
    simp only [news_loop]
    rw [if_neg h1, if_pos h2]

theorem news_loop_keep_eq (cits : List CitationDict) (jobCat : String)
    (jobSub : Option String) (now : DateTime) (a : ArticleDict) (rest : List ArticleDict)
    (st : Store) (c : Cache) (k : Nat) (tr : List Event)
    (h1 : ¬(a.title = "" ∨ a.title.length < 10))
    (h2 : (st.find_by_title a.title).isSome = false) :
    news_loop cits jobCat jobSub now (a :: rest) st c k tr =
      (add_news ((news_row a jobCat jobSub now st.nextId).to_dict cits) now.toTime c).bind
        (fun c1 =>
          news_loop cits jobCat jobSub now rest
            (addCitations st.nextId cits (st.add_flush (news_row a jobCat jobSub now st.nextId)))
            c1 (k + 1) (tr ++ [Event.cacheAdd st.nextId])) := by
  have h2' : ¬(st.find_by_title a.title).isSome = true := by simp [h2]
  simp only [news_loop]
  rw [if_neg h1, if_neg h2']
  rfl

/-! ### Structural lemmas about the news-article loop -/

/-- On a `listOnly` cache the article loop always succeeds; its trace extends
the accumulator by cache-insertion events only, and the committed table is
untouched while the loop runs (records are only flushed, not committed). -/
theorem news_loop_shape (cits : List CitationDict) (jobCat : String)
    (jobSub : Option String) (now : DateTime) :
    ∀ (arts : List ArticleDict) (st : Store) (c : Cache) (k : Nat) (tr : List Event),
      c.listOnly = true →
      ∃ (st' : Store) (c' : Cache) (k' : Nat) (ids : List Nat),
        news_loop cits jobCat jobSub now arts st c k tr =
          .ok (st', c', k', tr ++ ids.map Event.cacheAdd) ∧
        c'.listOnly = true ∧ st'.news = st.news := by
  intro arts
  induction arts with
  | nil =>
    intro st c k tr hc
    exact ⟨st, c, k, [], by simp [news_loop_nil_eq], hc, rfl⟩
  | cons a rest ih =>
    intro st c k tr hc
    by_cases h1 : a.title = "" ∨ a.title.length < 10
    · rw [news_loop_skip_eq _ _ _ _ _ _ _ _ _ _ (Or.inl h1)]
      exact ih st c k tr hc
    · by_cases h2 : (st.find_by_title a.title).isSome = true
      · rw [news_loop_skip_eq _ _ _ _ _ _ _ _ _ _ (Or.inr h2)]
        exact ih st c k tr hc
      · rw [news_loop_keep_eq _ _ _ _ _ _ _ _ _ _ h1 (by simpa using h2)]
        obtain ⟨c1, hadd, hall, hlo, hfeat, hkeep⟩ :=
          add_news_ok ((news_row a jobCat jobSub now st.nextId).to_dict cits) now.toTime hc
        rw [hadd]
        obtain ⟨st', c', k', ids, heq, hlo', hnews⟩ :=
          ih (addCitations st.nextId cits (st.add_flush (news_row a jobCat jobSub now st.nextId)))
            c1 (k + 1) (tr ++ [Event.cacheAdd st.nextId]) hlo
        refine ⟨st', c', k', st.nextId :: ids, ?_, hlo', ?_⟩
        · rw [show Except.bind (Except.ok c1)
            (fun c1 => news_loop cits jobCat jobSub now rest
              (addCitations st.nextId cits (st.add_flush (news_row a jobCat jobSub now st.nextId)))
              c1 (k + 1) (tr ++ [Event.cacheAdd st.nextId])) =
            news_loop cits jobCat jobSub now rest
              (addCitations st.nextId cits (st.add_flush (news_row a jobCat jobSub now st.nextId)))
              c1 (k + 1) (tr ++ [Event.cacheAdd st.nextId]) from rfl]
          rw [heq, List.append_assoc]
          rfl
        · rw [hnews, addCitations_news]
          rfl

/-- An article whose title is already committed in the store contributes
nothing: the loop behaves as if the article were absent. -/
theorem news_loop_skip_dup (cits : List CitationDict) (jobCat : String)
    (jobSub : Option String) (now : DateTime) (a : ArticleDict) :
    ∀ (pre post : List ArticleDict) (st : Store) (c : Cache) (k : Nat) (tr : List Event),
      (∃ r ∈ st.news, r.title = a.title) →
      news_loop cits jobCat jobSub now (pre ++ a :: post) st c k tr =
        news_loop cits jobCat jobSub now (pre ++ post) st c k tr := by
  intro pre
  induction pre with
  | nil =>
    intro post st c k tr hdup
    obtain ⟨r, hr, ht⟩ := hdup
    have hfind : (st.find_by_title a.title).isSome = true := by
      apply List.find?_isSome.mpr
      exact ⟨r, List.mem_append_left _ hr, by simp [ht]⟩
    simpa using news_loop_skip_eq cits jobCat jobSub now a post st c k tr (Or.inr hfind)
  | cons b pre' ih =>
    intro post st c k tr hdup
    by_cases h1 : b.title = "" ∨ b.title.length < 10
    · rw [List.cons_append, List.cons_append,
          news_loop_skip_eq _ _ _ _ _ _ _ _ _ _ (Or.inl h1),
          news_loop_skip_eq _ _ _ _ _ _ _ _ _ _ (Or.inl h1)]
      exact ih post st c k tr hdup
    · by_cases h2 : (st.find_by_title b.title).isSome = true
      · rw [List.cons_append, List.cons_append,
            news_loop_skip_eq _ _ _ _ _ _ _ _ _ _ (Or.inr h2),
            news_loop_skip_eq _ _ _ _ _ _ _ _ _ _ (Or.inr h2)]
        exact ih post st c k tr hdup
      · rw [List.cons_append, List.cons_append,
            news_loop_keep_eq _ _ _ _ _ _ _ _ _ _ h1 (by simpa using h2),
            news_loop_keep_eq _ _ _ _ _ _ _ _ _ _ h1 (by simpa using h2)]
        cases hadd : add_news ((news_row b jobCat jobSub now st.nextId).to_dict cits) now.toTime c with
        | error e => rfl
        | ok c1 =>
          have hst : ∃ r ∈ (addCitations st.nextId cits
              (st.add_flush (news_row b jobCat jobSub now st.nextId))).news, r.title = a.title := by
            rw [addCitations_news]
            exact hdup
          simpa using ih post _ c1 (k + 1) (tr ++ [Event.cacheAdd st.nextId]) hst

/-! ### Structural lemmas about the cache rebuild -/

theorem load_step_all_news (ct : List CitationRow) (c : Cache) (r : NewsRow) :
    (load_step ct c r).all_news = c.all_news ++ [load_dict ct r] := by
  simp only [load_step, load_dict]
  cases hcat : alGet r.category c.newsCat with
  | none => rfl
  | some bucket =>
    dsimp only
    cases hsub : alGet (some (pyOrO r.subcategory "general")) bucket with
    | none => rfl
    | some bv => cases bv <;> rfl

theorem load_step_featured (ct : List CitationRow) (c : Cache) (r : NewsRow) :
    (load_step ct c r).featured =
      if r.is_featured then c.featured ++ [load_dict ct r] else c.featured := by
  simp only [load_step, load_dict]
  cases hcat : alGet r.category c.newsCat with
  | none => rfl
  | some bucket =>
    dsimp only
    cases hsub : alGet (some (pyOrO r.subcategory "general")) bucket with
    | none => rfl
    | some bv => cases bv <;> rfl

/-- Case analysis of the category-map update performed by one rebuild step. -/
theorem load_step_newsCat (ct : List CitationRow) (c : Cache) (r : NewsRow) :
    (load_step ct c r).newsCat = c.newsCat ∨
    (∃ bucket, alGet r.category c.newsCat = some bucket ∧
      ((alGet (some (pyOrO r.subcategory "general")) bucket = none ∧
        (load_step ct c r).newsCat =
          alSet r.category
            (alSet (some (pyOrO r.subcategory "general")) (BucketVal.list [load_dict ct r]) bucket)
            c.newsCat) ∨
       (∃ l, alGet (some (pyOrO r.subcategory "general")) bucket = some (BucketVal.list l) ∧
        (load_step ct c r).newsCat =
          alSet r.category
            (alSet (some (pyOrO r.subcategory "general")) (BucketVal.list (l ++ [load_dict ct r])) bucket)
            c.newsCat))) := by
  simp only [load_step, load_dict]
  cases hcat : alGet r.category c.newsCat with
  | none => exact Or.inl rfl
  | some bucket =>
    dsimp only
    cases hsub : alGet (some (pyOrO r.subcategory "general")) bucket with
    | none => exact Or.inr ⟨bucket, rfl, Or.inl ⟨hsub, rfl⟩⟩
    | some bv =>
      cases bv with
      | list l => exact Or.inr ⟨bucket, rfl, Or.inr ⟨l, hsub, rfl⟩⟩
      | stock e => exact Or.inl rfl

/-- Any list entry of any bucket after one rebuild step was either already in
a bucket, or is the dict just loaded. -/
theorem load_step_bucket_mem {ct : List CitationRow} {c : Cache} {r : NewsRow}
    {p : String × CatBucket} {q : Option String × BucketVal} {l' : List NewsDict}
    {x : NewsDict}
    (hp : p ∈ (load_step ct c r).newsCat) (hq : q ∈ p.2)
    (hl : q.2 = BucketVal.list l') (hx : x ∈ l') :
    (∃ p0 ∈ c.newsCat, ∃ q0 ∈ p0.2, ∃ l0, q0.2 = BucketVal.list l0 ∧ x ∈ l0) ∨
      x = load_dict ct r := by
  rcases load_step_newsCat ct c r with hsame | ⟨bucket, hcat, hbr⟩
  · rw [hsame] at hp
    exact Or.inl ⟨p, hp, q, hq, l', hl, hx⟩
  · rcases hbr with ⟨hsub, hnc⟩ | ⟨l, hsub, hnc⟩
    · rw [hnc] at hp
      rcases mem_alSet hp with h3 | h3
      · subst h3
        rcases mem_alSet hq with h4 | h4
        · subst h4
          simp only at hl
          cases hl
          exact Or.inr (List.mem_singleton.mp hx)
        · exact Or.inl ⟨(r.category, bucket), alGet_mem hcat, q, h4, l', hl, hx⟩
      · exact Or.inl ⟨p, h3, q, hq, l', hl, hx⟩
    · rw [hnc] at hp
      rcases mem_alSet hp with h3 | h3
      · subst h3
        rcases mem_alSet hq with h4 | h4
        · subst h4
          simp only at hl
          cases hl
          rcases List.mem_append.mp hx with h5 | h5
          · exact Or.inl ⟨(r.category, bucket), alGet_mem hcat,
              (some (pyOrO r.subcategory "general"), BucketVal.list l), alGet_mem hsub, l, rfl, h5⟩
          · exact Or.inr (List.mem_singleton.mp h5)
        · exact Or.inl ⟨(r.category, bucket), alGet_mem hcat, q, h4, l', hl, hx⟩
      · exact Or.inl ⟨p, h3, q, hq, l', hl, hx⟩

theorem load_step_closed (ct : List CitationRow) (r : NewsRow) {c : Cache}
    (h : cacheClosed c) : cacheClosed (load_step ct c r) := by
  constructor
  · intro d hd
    rw [load_step_featured] at hd
    rw [load_step_all_news]
    by_cases hf : r.is_featured = true
    · rw [if_pos hf] at hd
      rcases List.mem_append.mp hd with h1 | h1
      · exact List.mem_append_left _ (h.1 d h1)
      · exact List.mem_append_right _ h1
    · rw [if_neg hf] at hd
      exact List.mem_append_left _ (h.1 d hd)
  · intro p hp q hq l hl x hx
    rw [load_step_all_news]
    rcases load_step_bucket_mem hp hq hl hx with ⟨p0, hp0, q0, hq0, l0, hl0, hx0⟩ | hxd
    · exact List.mem_append_left _ (h.2 p0 hp0 q0 hq0 l0 hl0 x hx0)
    · subst hxd
      exact List.mem_append_right _ (List.mem_singleton.mpr rfl)

theorem foldl_load_all_news (ct : List CitationRow) :
    ∀ (items : List NewsRow) (c0 : Cache),
      (items.foldl (load_step ct) c0).all_news = c0.all_news ++ items.map (load_dict ct) := by
  intro items
  induction items with
  | nil => intro c0; simp
  | cons r rest ih =>
    intro c0
    simp only [List.foldl, List.map]
    rw [ih, load_step_all_news, List.append_assoc]
    rfl

theorem foldl_load_closed (ct : List CitationRow) :
    ∀ (items : List NewsRow) (c0 : Cache),
      cacheClosed c0 → cacheClosed (items.foldl (load_step ct) c0) := by
  intro items
  induction items with
  | nil => intro c0 h; exact h
  | cons r rest ih =>
    intro c0 h
    exact ih _ (load_step_closed ct r h)

/-! ### Structural lemmas about category reads -/

theorem collectBucket_ok_mem :
    ∀ {b : CatBucket} {L : List NewsDict}, collectBucket b = .ok L →
      ∀ {x : NewsDict}, x ∈ L → ∃ k l, (k, BucketVal.list l) ∈ b ∧ x ∈ l := by
  intro b
  induction b with
  | nil =>
    intro L h x hx
    simp only [collectBucket] at h
    cases h
    cases hx
  | cons q rest ih =>
    intro L h x hx
    rcases q with ⟨k0, bv⟩
    cases bv with
    | stock e => simp [collectBucket] at h
    | list l0 =>
      simp only [collectBucket] at h
      cases hrec : collectBucket rest with
      | error e => rw [hrec] at h; cases h
      | ok L' =>
        rw [hrec] at h
        simp only [Except.map] at h
        cases h
        rcases List.mem_append.mp hx with h1 | h1
        · exact ⟨k0, l0, List.mem_cons_self _ _, h1⟩
        · obtain ⟨k1, l1, hmem, hx1⟩ := ih hrec h1
          exact ⟨k1, l1, List.mem_cons_of_mem _ hmem, hx1⟩

/-- Every record returned by `get_news_by_category` lives in some list bucket
of the category map. -/
theorem get_news_by_category_mem {cat : String} {sub : Option String} {lim : Nat}
    {c : Cache} {l : List NewsDict}
    (h : get_news_by_category cat sub lim c = .ok l) {x : NewsDict} (hx : x ∈ l) :
    ∃ bucket k l0, alGet cat c.newsCat = some bucket ∧
      (k, BucketVal.list l0) ∈ bucket ∧ x ∈ l0 := by
  cases hcat : alGet cat c.newsCat with
  | none =>
    simp only [get_news_by_category, hcat] at h
    injection h with h2
    rw [← h2] at hx
    exact absurd hx (List.not_mem_nil x)
  | some bucket =>
    simp only [get_news_by_category, hcat] at h
    have merged : ∀ (L : List NewsDict), collectBucket bucket = .ok L →
        (sortDesc dictLe L).take lim = l →
        ∃ bucket' k l0, some bucket = some bucket' ∧
          (k, BucketVal.list l0) ∈ bucket' ∧ x ∈ l0 := by
      intro L hcol hl
      have hx' : x ∈ (sortDesc dictLe L).take lim := by rw [hl]; exact hx
      have hxL : x ∈ L := (mem_sortDesc dictLe x L).mp (List.take_subset _ _ hx')
      obtain ⟨k, l0, hmem, hx0⟩ := collectBucket_ok_mem hcol hxL
      exact ⟨bucket, k, l0, rfl, hmem, hx0⟩
    cases sub with
    | none =>
      cases hcol : collectBucket bucket with
      | error e => rw [hcol] at h; simp [Except.map] at h
      | ok L =>
        rw [hcol] at h
        simp only [Except.map] at h
        injection h with h2
        exact merged L hcol h2
    | some s =>
      dsimp only at h
      by_cases hs : s = ""
      · rw [if_pos hs] at h
        cases hcol : collectBucket bucket with
        | error e => rw [hcol] at h; simp [Except.map] at h
        | ok L =>
          rw [hcol] at h
          simp only [Except.map] at h
          injection h with h2
          exact merged L hcol h2
      · rw [if_neg hs] at h
        cases hsub : alGet (some s) bucket with
        | none =>
          simp only [hsub] at h
          injection h with h2
          rw [← h2] at hx
          exact absurd hx (List.not_mem_nil x)
        | some bv =>
          cases bv with
          | list l0 =>
            simp only [hsub] at h
            injection h with h2
            have hx' : x ∈ l0.take lim := by rw [h2]; exact hx
            exact ⟨bucket, some s, l0, rfl, alGet_mem hsub, List.take_subset _ _ hx'⟩
          | stock e =>
            simp only [hsub] at h
            exact absurd h (by simp)

/-- `get_news_by_category` reads only the category map. -/
theorem get_news_by_category_congr {c1 c2 : Cache} (h : c1.newsCat = c2.newsCat)
    (cat : String) (sub : Option String) (lim : Nat) :
    get_news_by_category cat sub lim c1 = get_news_by_category cat sub lim c2 := by
  simp only [get_news_by_category, h]

/-! ### Remaining small lemmas -/

theorem upperStr_eq_empty {s : String} (h : upperStr s = "") : s = "" := by
  have h1 : s.data.map Char.toUpper = [] := congrArg String.data h
  have h2 : s.data = [] := List.map_eq_nil_iff.mp h1
  cases s
  simp only at h2
  rw [h2]

theorem initCache_empty_buckets : ∀ p ∈ initCache.newsCat, p.2 = ([] : CatBucket) := by
  decide

theorem commit_no_pending {st : Store} (h1 : st.pendingNews = [])
    (h2 : st.pendingCitations = []) : st.commit = st := by
  cases st
  simp only at h1 h2
  simp [Store.commit, h1, h2]

/-! ### Claims -/

/-- C1 counterexample: on a news-path job execution with one kept article, the
actual trace is success-log, then cache insertion, then commit — the cache
insertion is neither preceded by the covering commit nor followed by the
success CallAttempt, refuting the claimed ordering. -/
theorem c1_counterexample :
    run_trace (process_news_job (.succeeds [artOne] []) jobSector nowX stEmpty initCache) =
      [Event.log true, Event.cacheAdd 1, Event.commitTx] ∧
    spec_order_holds
      (run_trace (process_news_job (.succeeds [artOne] []) jobSector nowX stEmpty initCache)) =
      false := by
  decide

/-- C1 (amended): in every successful job execution the success CallAttempt is
logged first (inside the provider call, before any persistence or cache
write); on the market path the transaction commit precedes the record's cache
insertion, while on the news path every record's cache insertion precedes the
end-of-job commit. -/
theorem c1_amended_ordering
    (t cont : String) (ss : Int) (se : String) (cits cits2 : List CitationDict)
    (arts : List ArticleDict) (jobm jobn : ScheduleJob) (nowm nown : DateTime)
    (stm stn : Store) (cm cn : Cache)
    (hcm : cm.listOnly = true) (hcn : cn.listOnly = true) :
    (∃ out, process_market_job (.succeeds t cont ss se cits) jobm nowm stm cm = .ok out ∧
       out.trace = [Event.log true, Event.commitTx, Event.cacheAdd stm.nextId]) ∧
    (∃ out, ∃ ids : List Nat,
       process_news_job (.succeeds arts cits2) jobn nown stn cn = .ok out ∧
       out.trace = Event.log true :: (ids.map Event.cacheAdd ++ [Event.commitTx])) := by
  constructor
  · obtain ⟨c1, hadd, -, -, -, -⟩ :=
      add_news_ok ((market_row t cont ss se jobm nowm stm.nextId).to_dict cits) nowm.toTime hcm
    rw [process_market_job_succeeds_eq, hadd]
    exact ⟨_, rfl, rfl⟩
  · obtain ⟨st', c', k', ids, hloop, -, -⟩ :=
      news_loop_shape cits2 jobn.category jobn.subcategory nown arts (stn.commit) cn 0 [] hcn
    rw [process_news_job_succeeds_eq, hloop]
    exact ⟨_, ids, rfl, rfl⟩

theorem c1_amended_ordering_witness :
    (∃ out, process_market_job (.succeeds "T12345678" "b" 0 "" []) jobMarket nowX stEmpty initCache = .ok out ∧
       out.trace = [Event.log true, Event.commitTx, Event.cacheAdd stEmpty.nextId]) ∧
    (∃ out, ∃ ids : List Nat,
       process_news_job (.succeeds [artOne] []) jobSector nowX stEmpty initCache = .ok out ∧
       out.trace = Event.log true :: (ids.map Event.cacheAdd ++ [Event.commitTx])) :=
  c1_amended_ordering "T12345678" "b" 0 "" [] [] [artOne] jobMarket jobSector nowX nowX
    stEmpty stEmpty initCache initCache (by decide) (by decide)

/-- C2 counterexample: when the provider client is not configured, the market
pipeline returns the failure dict with store and cache untouched, but its
trace is empty — no failed CallAttempt is logged, refuting the claim. -/
theorem c2_counterexample :
    run_result (process_market_job .notConfigured jobMarket nowX stEmpty initCache) =
      some { success := false, error := some "API key not configured", news_count := 0 } ∧
    run_trace (process_market_job .notConfigured jobMarket nowX stEmpty initCache) = [] ∧
    (run_trace (process_market_job .notConfigured jobMarket nowX stEmpty initCache)).contains
      (Event.log false) = false := by
  decide

/-- C2 (amended): on both pipeline paths, a provider exception with a nonempty
message logs one failed CallAttempt and returns success: false with the error,
leaving the news table and the cache untouched (the store only absorbs the log
commit, a no-op on a fresh session); the NotConfigured case returns the same
kind of failure result without touching anything and without logging any
CallAttempt. -/
theorem c2_provider_failures (m : String) (hm : m ≠ "") (job : ScheduleJob)
    (now : DateTime) (st : Store) (c : Cache) :
    process_market_job .notConfigured job now st c =
      .ok { result := { success := false, error := some "API key not configured", news_count := 0 },
            job := job, store := st, cache := c, trace := [] } ∧
    process_news_job .notConfigured job now st c =
      .ok { result := { success := false, error := some "API key not configured", news_count := 0 },
            job := job, store := st, cache := c, trace := [] } ∧
    process_market_job (.raises m) job now st c =
      .ok { result := { success := false, error := some m, news_count := 0 },
            job := job, store := st.commit, cache := c, trace := [Event.log false] } ∧
    process_news_job (.raises m) job now st c =
      .ok { result := { success := false, error := some m, news_count := 0 },
            job := job, store := st.commit, cache := c, trace := [Event.log false] } ∧
    (st.pendingNews = [] → st.pendingCitations = [] → st.commit = st) :=
  ⟨process_market_job_notConfigured_eq job now st c,
   process_news_job_notConfigured_eq job now st c,
   process_market_job_raises_eq m hm job now st c,
   process_news_job_raises_eq m hm job now st c,
   fun h1 h2 => commit_no_pending h1 h2⟩

theorem c2_provider_failures_witness :
    process_market_job .notConfigured jobMarket nowX stEmpty initCache =
      .ok { result := { success := false, error := some "API key not configured", news_count := 0 },
            job := jobMarket, store := stEmpty, cache := initCache, trace := [] } ∧
    process_news_job .notConfigured jobMarket nowX stEmpty initCache =
      .ok { result := { success := false, error := some "API key not configured", news_count := 0 },
            job := jobMarket, store := stEmpty, cache := initCache, trace := [] } ∧
    process_market_job (.raises "boom") jobMarket nowX stEmpty initCache =
      .ok { result := { success := false, error := some "boom", news_count := 0 },
            job := jobMarket, store := stEmpty.commit, cache := initCache, trace := [Event.log false] } ∧
    process_news_job (.raises "boom") jobMarket nowX stEmpty initCache =
      .ok { result := { success := false, error := some "boom", news_count := 0 },
            job := jobMarket, store := stEmpty.commit, cache := initCache, trace := [Event.log false] } ∧
    (stEmpty.pendingNews = [] → stEmpty.pendingCitations = [] → stEmpty.commit = stEmpty) :=
  c2_provider_failures "boom" (by decide) jobMarket nowX stEmpty initCache

/-- C3 counterexample: a market-style job whose provider title exactly matches
an already-stored title still persists a new record and pushes a new cache
entry — the market path performs no deduplication, refuting the claim for
"any job". -/
theorem c3_counterexample :
    run_news_titles (process_market_job (.succeeds "Auto sector rallies today" "b" 0 "" [])
        jobMarket nowX stDup initCache) =
      ["Auto sector rallies today", "Auto sector rallies today"] ∧
    run_result (process_market_job (.succeeds "Auto sector rallies today" "b" 0 "" [])
        jobMarket nowX stDup initCache) =
      some { success := true, error := none, news_count := 1 } ∧
    run_cache_size (process_market_job (.succeeds "Auto sector rallies today" "b" 0 "" [])
        jobMarket nowX stDup initCache) = 1 := by
  decide

/-- C3 (amended): on the news-article path an incoming article whose title
exactly matches (case-sensitively) the title of an already-stored record
contributes nothing: the whole job execution — persisted records, cache,
result and trace — is identical to the execution without that article. -/
theorem c3_news_dedup (pre post : List ArticleDict) (a : ArticleDict)
    (cits : List CitationDict) (job : ScheduleJob) (now : DateTime) (st : Store)
    (c : Cache) (hdup : ∃ r ∈ st.news, r.title = a.title) :
    process_news_job (.succeeds (pre ++ a :: post) cits) job now st c =
      process_news_job (.succeeds (pre ++ post) cits) job now st c := by
  rw [process_news_job_succeeds_eq, process_news_job_succeeds_eq]
  refine congrArg _ ?_
  apply news_loop_skip_dup
  obtain ⟨r, hr, ht⟩ := hdup
  exact ⟨r, List.mem_append_left _ hr, ht⟩

theorem c3_news_dedup_witness :
    process_news_job (.succeeds ([] ++ artOne :: []) []) jobSector nowX stDup initCache =
      process_news_job (.succeeds ([] ++ []) []) jobSector nowX stDup initCache :=
  c3_news_dedup [] [] artOne [] jobSector nowX stDup initCache
    ⟨rowDup, by decide, by decide⟩

set_option maxRecDepth 100000 in
/-- C4: evaluating the market path at a 501-character provider title shows the
persisted record keeps all 501 characters — the market path never truncates,
although the news path does and the `News.title` column is declared
`String(500)`. -/
theorem c4_market_title_not_truncated :
    run_title_lengths (process_market_job (.succeeds title501 "b" 0 "" [])
        jobMarket nowX stEmpty initCache) = [501] := by
  decide

/-- C5: every successful market-style job execution persists exactly one new
record; its title is the provider title when nonempty, and the deterministic
generated title (from the job's subcategory and the current date) exactly when
the provider title is below the minimum useful length, i.e. empty — the
code's falsy check replaces precisely the empty title. -/
theorem c5_market_builds_one_record (t cont : String) (ss : Int) (se : String)
    (cits : List CitationDict) (job : ScheduleJob) (now : DateTime) (st : Store)
    (c : Cache) (hc : c.listOnly = true) :
    ∃ out row, process_market_job (.succeeds t cont ss se cits) job now st c = .ok out ∧
      out.result = { success := true, error := none, news_count := 1 } ∧
      out.store.news = st.news ++ st.pendingNews ++ [row] ∧
      (t = "" → row.title = generate_title job.subcategory now) ∧
      (t ≠ "" → row.title = t) := by
  obtain ⟨c1, hadd, -, -, -, -⟩ :=
    add_news_ok ((market_row t cont ss se job now st.nextId).to_dict cits) now.toTime hc
  rw [process_market_job_succeeds_eq, hadd]
  refine ⟨_, market_row t cont ss se job now st.nextId, rfl, rfl, ?_, ?_, ?_⟩
  · show ((addCitations st.nextId cits
        (Store.add_flush (st.commit) (market_row t cont ss se job now st.nextId))).commit).news = _
    simp [Store.commit, Store.add_flush, addCitations_news, addCitations_pendingNews]
  · intro h
    simp [market_row, h]
  · intro h
    simp [market_row, h]

theorem c5_market_builds_one_record_witness :
    ∃ out row, process_market_job (.succeeds "" "b" 2 "why" []) jobMarket nowX stEmpty initCache = .ok out ∧
      out.result = { success := true, error := none, news_count := 1 } ∧
      out.store.news = stEmpty.news ++ stEmpty.pendingNews ++ [row] ∧
      ("" = "" → row.title = generate_title jobMarket.subcategory nowX) ∧
      ("" ≠ "" → row.title = "") :=
  c5_market_builds_one_record "" "b" 2 "why" [] jobMarket nowX stEmpty initCache (by decide)

/-- C6: `load_from_db` rebuilds the cache so that the flat list holds exactly
the published rows of the store (one entry per published row, none for
unpublished rows), and every record reachable from the featured list or any
category bucket is one of those flat-list entries. -/
theorem c6_load_rebuilds_published (st : Store) (c : Cache) :
    (load_from_db st c).all_news.length = (st.news.filter (fun r => r.is_published)).length ∧
    (∀ d, d ∈ (load_from_db st c).all_news ↔
      ∃ r ∈ st.news, r.is_published = true ∧ d = load_dict st.citations r) ∧
    cacheClosed (load_from_db st c) := by
  have hfold : (load_from_db st c).all_news =
      (sortDesc rowLe (st.news.filter (fun r => r.is_published))).map (load_dict st.citations) := by
    simp only [load_from_db]
    rw [foldl_load_all_news]
    simp
  refine ⟨?_, ?_, ?_⟩
  · rw [hfold]
    simp [length_sortDesc]
  · intro d
    rw [hfold]
    simp only [List.mem_map]
    constructor
    · rintro ⟨r, hr, rfl⟩
      obtain ⟨hmem, hpub⟩ := List.mem_filter.mp ((mem_sortDesc rowLe r _).mp hr)
      exact ⟨r, hmem, hpub, rfl⟩
    · rintro ⟨r, hmem, hpub, rfl⟩
      exact ⟨r, (mem_sortDesc rowLe r _).mpr (List.mem_filter.mpr ⟨hmem, hpub⟩), rfl⟩
  · simp only [load_from_db]
    apply foldl_load_closed
    constructor
    · intro dd hdd
      exact absurd hdd (List.not_mem_nil _)
    · intro p hp q hq l hl x hx
      obtain ⟨p0, hp0, hpe⟩ := List.mem_map.mp hp
      rw [← hpe] at hq
      exact absurd hq (List.not_mem_nil _)

/-- C7: after `set_stock_news` populates the per-symbol entry at time `t0`, a
`get_stock_news` call at any time `t1` inside the 30-minute TTL returns the
stored list truncated to the limit, and a call at or past expiry ignores the
stale entry and returns the flat-list scan by symbol match instead. -/
theorem c7_symbol_cache_ttl (sym : String) (L : List NewsDict) (t0 t1 : Time)
    (lim : Nat) (c : Cache) (b : CatBucket)
    (hb : alGet "stock" c.newsCat = some b) :
    ∃ c', set_stock_news sym L t0 c = .ok c' ∧
      c'.all_news = c.all_news ∧
      (t0 + 30 > t1 → get_stock_news sym lim t1 c' = .ok (L.take lim)) ∧
      (¬ t0 + 30 > t1 →
        get_stock_news sym lim t1 c' = .ok ((c.all_news.filter (sym_match sym)).take lim)) := by
  have hset : set_stock_news sym L t0 c = .ok (stock_set sym L t0 b c) := by
    simp only [set_stock_news, hb, stock_set]
  have h1 : alGet "stock" (stock_set sym L t0 b c).newsCat =
      some (alSet (some sym) (BucketVal.stock { news := L, expires_at := t0 + 30 }) b) :=
    alGet_alSet_self _ _ _
  have h2 : alGet (some sym) (alSet (some sym) (BucketVal.stock { news := L, expires_at := t0 + 30 }) b) =
      some (BucketVal.stock { news := L, expires_at := t0 + 30 }) :=
    alGet_alSet_self _ _ _
  refine ⟨_, hset, rfl, ?_, ?_⟩
  · intro hlt
    simp only [get_stock_news, h1, h2]
    rw [if_pos hlt]
  · intro hge
    simp only [get_stock_news, h1, h2]
    rw [if_neg hge]
    rfl

theorem c7_symbol_cache_ttl_witness :
    ∃ c', set_stock_news "TCS" [dictTcs] 100 initCache = .ok c' ∧
      get_stock_news "TCS" 20 120 c' = .ok [dictTcs] ∧
      get_stock_news "TCS" 20 130 c' = .ok [] := by
  obtain ⟨c', hset, hall, hfresh, hstale⟩ :=
    c7_symbol_cache_ttl "TCS" [dictTcs] 100 120 20 initCache [] (by decide)
  obtain ⟨c'', hset2, hall2, hfresh2, hstale2⟩ :=
    c7_symbol_cache_ttl "TCS" [dictTcs] 100 130 20 initCache [] (by decide)
  have hcc : c'' = c' := by
    rw [hset] at hset2
    injection hset2 with h
    exact h.symm
  refine ⟨c', hset, by simpa using hfresh (by decide), ?_⟩
  have := hstale2 (by decide)
  rw [hcc] at this
  simpa using this

/-- C8: evaluating `remove_news` on a cache whose per-symbol TTL entry was
populated by `set_stock_news` (a state reachable in the program) raises
`AttributeError`: the category loop iterates the TTL dict's string keys and
calls `.get` on them, contradicting the claimed always-succeeding idempotent
removal. -/
theorem c8_remove_after_stock_cache_raises :
    (set_stock_news "TCS" [dictTcs] 100 initCache).bind (remove_news 1) =
      .error "AttributeError: str object has no attribute get" := by
  decide

/-- C9: adding a record whose category key is absent from the category map
inserts it at the head of the flat list — so `get_latest_news`,
`get_news_by_id` and `search_news` can return it — but into no category
bucket: the category map is unchanged, `get_news_by_category` gives identical
results, and (for a record not already present in some bucket) never returns
it, for any category/subcategory/limit arguments. -/
theorem c9_unknown_category (d : NewsDict) (c : Cache) (nid : Nat) (now : Time)
    (hcat : alGet d.category c.newsCat = none)
    (hid : d.id = some nid)
    (hfresh : ∀ p ∈ c.newsCat, ∀ q ∈ p.2, ∀ l, q.2 = BucketVal.list l → d ∉ l) :
    ∃ c', add_news d now c = .ok c' ∧
      c'.all_news = d :: c.all_news ∧
      c'.newsCat = c.newsCat ∧
      (∀ cat sub lim, get_news_by_category cat sub lim c' = get_news_by_category cat sub lim c) ∧
      (∀ cat sub lim l, get_news_by_category cat sub lim c' = .ok l → d ∉ l) ∧
      (∀ lim, 1 ≤ lim → (get_latest_news lim c').head? = some d) ∧
      get_news_by_id nid c' = some d ∧
      (∀ lim, 1 ≤ lim → (search_news "" lim c').head? = some d) := by
  have heq : add_news d now c = .ok
      { c with all_news := d :: c.all_news,
               last_updated := alSet (cacheKeyOf d.category d.subcategory) now c.last_updated,
               featured := if d.is_featured then d :: c.featured else c.featured } := by
    simp only [add_news, hcat]
  refine ⟨_, heq, rfl, rfl, ?_, ?_, ?_, ?_, ?_⟩
  · intro cat sub lim
    exact get_news_by_category_congr rfl cat sub lim
  · intro cat sub lim l hgot hdl
    obtain ⟨bucket, k, l0, hb, hmem, hd0⟩ := get_news_by_category_mem hgot hdl
    exact hfresh (cat, bucket) (alGet_mem hb) (k, BucketVal.list l0) hmem l0 rfl hd0
  · intro lim hlim
    cases lim with
    | zero => omega
    | succ n => rfl
  · show (d :: c.all_news).find? (fun n => n.id == some nid) = some d
    apply List.find?_cons_of_pos
    rw [hid]
    exact beq_self_eq_true _
  · intro lim hlim
    cases lim with
    | zero => omega
    | succ n =>
      have hpd : (strContains (lowerStr d.title) (lowerStr "") ||
          strContains (lowerStr d.summary) (lowerStr "")) = true := by
        have h1 : strContains (lowerStr d.title) (lowerStr "") = true :=
          decide_eq_true List.nil_infix
        rw [h1]
        rfl
      show (((d :: c.all_news).filter (fun n =>
          strContains (lowerStr n.title) (lowerStr "") ||
          strContains (lowerStr n.summary) (lowerStr ""))).take (n + 1)).head? = some d
      simp only [List.filter_cons]
      rw [hpd]
      rfl

theorem c9_unknown_category_witness :
    ∃ c', add_news dictOdd 80 initCache = .ok c' ∧
      c'.all_news = dictOdd :: initCache.all_news ∧
      c'.newsCat = initCache.newsCat ∧
      (∀ cat sub lim, get_news_by_category cat sub lim c' = get_news_by_category cat sub lim initCache) ∧
      (∀ cat sub lim l, get_news_by_category cat sub lim c' = .ok l → dictOdd ∉ l) ∧
      (∀ lim, 1 ≤ lim → (get_latest_news lim c').head? = some dictOdd) ∧
      get_news_by_id 9 c' = some dictOdd ∧
      (∀ lim, 1 ≤ lim → (search_news "" lim c').head? = some dictOdd) :=
  c9_unknown_category dictOdd initCache 9 80 (by decide) (by decide)
    (by
      intro p hp q hq l hl hx
      exact absurd (initCache_empty_buckets p hp ▸ hq) (List.not_mem_nil _))

/-- C10 counterexample: for the empty query symbol, the fallback scan returns
a record whose symbols string is empty — `"".upper()` is a member of
`"".upper().split(",")` — refuting "records with an empty or missing symbols
string are never returned". -/
theorem c10_counterexample :
    get_stock_news "" 20 0 { initCache with all_news := [dictNoSyms] } = .ok [dictNoSyms] ∧
    dictNoSyms.symbols = some "" := by
  decide

/-- C10 (amended): when the per-symbol entry is absent or expired,
`get_stock_news` returns the flat list filtered by `sym_match` and truncated
to the limit; `sym_match` holds exactly when the uppercased query symbol
equals one of the comma-split tokens of the uppercased symbols string; and a
record with an empty or missing symbols string is never matched by any
nonempty query symbol (the empty query symbol is the one exception). -/
theorem c10_scan_matching (sym : String) (lim : Nat) (t : Time) (c : Cache)
    (b : CatBucket) (hb : alGet "stock" c.newsCat = some b) :
    (alGet (some sym) b = none →
      get_stock_news sym lim t c = .ok ((c.all_news.filter (sym_match sym)).take lim)) ∧
    (∀ e, alGet (some sym) b = some (BucketVal.stock e) → ¬ e.expires_at > t →
      get_stock_news sym lim t c = .ok ((c.all_news.filter (sym_match sym)).take lim)) ∧
    (∀ n : NewsDict, sym_match sym n = true ↔
      upperStr sym ∈ pySplitComma (upperStr (n.symbols.getD ""))) ∧
    (sym ≠ "" → ∀ n : NewsDict, (n.symbols = none ∨ n.symbols = some "") →
      sym_match sym n = false) := by
  refine ⟨?_, ?_, ?_, ?_⟩
  · intro hsym
    simp only [get_stock_news, hb, hsym]
  · intro e hsym hexp
    simp only [get_stock_news, hb, hsym]
    rw [if_neg hexp]
  · intro n
    simp [sym_match]
  · intro hs n hn
    have hget : n.symbols.getD "" = "" := by
      rcases hn with h | h <;> simp [h]
    have hsplit : pySplitComma (upperStr "") = [""] := by decide
    have h2 : upperStr sym ≠ "" := fun hcon => hs (upperStr_eq_empty hcon)
    rw [show sym_match sym n =
        decide (upperStr sym ∈ pySplitComma (upperStr (n.symbols.getD ""))) from rfl,
      hget, hsplit]
    simp [h2]

theorem c10_scan_matching_witness :
    get_stock_news "TCS" 20 0 { initCache with all_news := [dictTcs, dictNoSyms] } =
      .ok [dictTcs] ∧
    sym_match "TCS" dictNoSyms = false := by
  obtain ⟨habs, hexp, hiff, hempty⟩ :=
    c10_scan_matching "TCS" 20 0 { initCache with all_news := [dictTcs, dictNoSyms] } []
      (by decide)
  constructor
  · exact (habs (by decide)).trans (by decide)
  · exact hempty (by decide) dictNoSyms (Or.inr (by decide))

end Finsights
